import Mathlib

/-!
Shallow embedding of the status-derivation and optimistic-update state
layer of the bus-tracking application, together with proofs of the
specification's claims about it.

Sources embedded:
* `deriveBusStatus` (sheets-api module)
* `deriveBusSection`, `deriveBusActions`, `mergeBusData`, `loadBuses`,
  `refreshBuses`, `updateBusLocally`, `getBusesForView`
  (`src/lib/state/buses.svelte.ts`)
* `deduplicateRequest`, `recordRateLimitHit`, `recordSuccessfulCall`,
  `getRecommendedPollInterval` (sheets-cache module)

Modelling conventions: JavaScript strings are `String`; the truthiness
test `if (s)` on a string is `s ≠ ""`; `Partial<T>` is a record of
`Option` fields merged with `Option.getD`; module-level mutable state is
passed explicitly; `Date.now()` is a `Nat` parameter; promises are
identified by allocation ids and remote outcomes are `Except` values.
-/

/-! ## Data model -/

/-- One bus per configured route (sheets-api `BusConfig`). -/
structure BusConfig where
  bus_number : String
  expected_arrival_time : String
deriving DecidableEq, Repr

/-- One row per bus per day (sheets-api `BusStatus`). -/
structure BusStatus where
  bus_number : String
  covered_by : String
  is_uncovered : Bool
  arrival_time : String
  departure_time : String
  last_modified_by : String
  last_modified_at : String
deriving DecidableEq, Repr

/-- sheets-api `BusDerivedStatus`. -/
inductive BusDerivedStatus where
  | pending | arrived | departed | uncovered
deriving DecidableEq, Repr

/-- Type `BusSection` from `buses.svelte.ts`. -/
inductive BusSection where
  | pending | arrived | done
deriving DecidableEq, Repr

/-- Type `ViewMode` from `buses.svelte.ts`. -/
inductive ViewMode where
  | monitor | teacher | admin
deriving DecidableEq, Repr

/-- Type `BusActions` from `buses.svelte.ts`. -/
structure BusActions where
  canMarkArrived : Bool
  canMarkDeparted : Bool
  canMarkCovered : Bool
  canMarkUncovered : Bool
  canEdit : Bool
deriving DecidableEq, Repr

/-- Function `deriveBusStatus` (sheets-api): `is_uncovered` wins, then a set
departure time, then a set arrival time, else pending.  A JS string is
truthy exactly when non-empty. -/
def deriveBusStatus (bus : BusStatus) : BusDerivedStatus :=
  if bus.is_uncovered then .uncovered
  else if bus.departure_time ≠ "" then .departed
  else if bus.arrival_time ≠ "" then .arrived
  else .pending

/-- Type `BusWithStatus` from `buses.svelte.ts`: the status row extended with
the configured expected time and the derived display fields.  The TS
interface extends `BusStatus`; the `section` field is renamed
`uiSection` because `section` is a Lean keyword. -/
structure BusWithStatus extends BusStatus where
  expected_arrival_time : String
  derivedStatus : BusDerivedStatus
  uiSection : BusSection
  actions : BusActions
deriving DecidableEq, Repr

/-- Function `deriveBusSection` (`buses.svelte.ts` lines 40-44). -/
def deriveBusSection (status : BusDerivedStatus) : BusSection :=
  if status = .departed then .done
  else if status = .arrived then .arrived
  else .pending

/-- Function `deriveBusActions` (`buses.svelte.ts` lines 50-65).  The TS argument
type is `BusStatus & \x7b derivedStatus \x7d`, a supertype of
`BusWithStatus`; every call site passes a `BusWithStatus`. -/
def deriveBusActions (bus : BusWithStatus) (mode : ViewMode) : BusActions :=
  let isPending := bus.derivedStatus == .pending
  let isArrived := bus.derivedStatus == .arrived
  let isMonitor := mode == .monitor
  { canMarkArrived := isMonitor && isPending && (bus.covered_by == "") && !bus.is_uncovered
    canMarkDeparted := isMonitor && isArrived
    canMarkCovered := isMonitor && isPending
    canMarkUncovered := false
    canEdit := (mode == .monitor) || (mode == .admin) }

/-- The all-false `noActions` default (`buses.svelte.ts` lines 78-84). -/
def noActions : BusActions :=
  { canMarkArrived := false, canMarkDeparted := false, canMarkCovered := false
    canMarkUncovered := false, canEdit := false }

/-- The all-empty status row synthesized by `mergeBusData` when a
configured bus has no row for the day (`buses.svelte.ts` lines 92-100). -/
def emptyStatusFor (busNumber : String) : BusStatus :=
  { bus_number := busNumber, covered_by := "", is_uncovered := false
    arrival_time := "", departure_time := ""
    last_modified_by := "", last_modified_at := "" }

/-- Function `mergeBusData` (`buses.svelte.ts` lines 90-112): one output entry per
configured bus, matching status rows by bus number, defaulting to the
all-empty row.  `Array.prototype.find` is `List.find?`. -/
def mergeBusData (configData : List BusConfig) (statusData : List BusStatus) :
    List BusWithStatus :=
  configData.map fun c =>
    let status :=
      (statusData.find? (fun s => s.bus_number = c.bus_number)).getD
        (emptyStatusFor c.bus_number)
    let derivedStatus := deriveBusStatus status
    { toBusStatus := status
      expected_arrival_time := c.expected_arrival_time
      derivedStatus := derivedStatus
      uiSection := deriveBusSection derivedStatus
      actions := noActions }

/-! ## Claim C1: status derivation priority -/

/-- C1: `deriveBusStatus` is total (it is a Lean function) and follows
the priority order uncovered > departed > arrived > pending; in
particular `is_uncovered` dominates a set departure time. -/
theorem claim_C1_derive_status_priority (bus : BusStatus) :
    (bus.is_uncovered = true → deriveBusStatus bus = .uncovered) ∧
    (bus.is_uncovered = false → bus.departure_time ≠ "" →
      deriveBusStatus bus = .departed) ∧
    (bus.is_uncovered = false → bus.departure_time = "" →
      bus.arrival_time ≠ "" → deriveBusStatus bus = .arrived) ∧
    (bus.is_uncovered = false → bus.departure_time = "" →
      bus.arrival_time = "" → deriveBusStatus bus = .pending) ∧
    (bus.is_uncovered = true → bus.departure_time ≠ "" →
      deriveBusStatus bus = .uncovered) := by
  refine ⟨?_, ?_, ?_, ?_, ?_⟩ <;> intro h <;>
    simp [deriveBusStatus, h] <;> intros <;> simp_all

/-- C1 witness: a record with `is_uncovered = true` and a non-empty
departure time derives to `uncovered`. -/
theorem claim_C1_witness :
    deriveBusStatus
      { bus_number := "3", covered_by := "", is_uncovered := true
        arrival_time := "", departure_time := "15:10"
        last_modified_by := "", last_modified_at := "" } = .uncovered :=
  (claim_C1_derive_status_priority _).2.2.2.2 rfl (by decide)

/-! ## Claim C4: section mapping -/

/-- C4: `deriveBusSection` maps departed to done, arrived to arrived, and
both pending and uncovered to pending; an uncovered bus is never in the
done section. -/
theorem claim_C4_section_rule :
    deriveBusSection .departed = .done ∧
    deriveBusSection .arrived = .arrived ∧
    deriveBusSection .pending = .pending ∧
    deriveBusSection .uncovered = .pending ∧
    deriveBusSection .uncovered ≠ .done := by
  decide

/-! ## Claim C2: action policy

The claim reads the spec's "monitor-capable (monitor or admin)" into all
three mark actions.  The code only grants them to the monitor role
(`isMonitor = mode === 'monitor'`); its own doc comment says admin mode
only shows the edit button.  So the claim is refuted for the admin role
and holds with "monitor-capable" replaced by "the monitor role". -/

/-- The spec's notion of a monitor-capable role: monitor or admin. -/
def specMonitorCapable (mode : ViewMode) : Bool :=
  (mode == .monitor) || (mode == .admin)

/-- A concrete pending bus row — not covered and not uncovered — used to
refute claim C2 for the admin role. -/
def pendingBus3 : BusWithStatus :=
  let status := emptyStatusFor "3"
  { toBusStatus := status
    expected_arrival_time := "15:00"
    derivedStatus := deriveBusStatus status
    uiSection := deriveBusSection (deriveBusStatus status)
    actions := noActions }

/-- C2 counterexample: for the admin role — monitor-capable per the
claim — with a pending, not-covered, not-uncovered bus, the code returns
`canMarkArrived = false` (and likewise denies marking departed or
covered in the corresponding states), refuting the claimed
iff. -/
theorem claim_C2_counterexample :
    specMonitorCapable .admin = true ∧
    pendingBus3.derivedStatus = .pending ∧
    pendingBus3.covered_by = "" ∧
    pendingBus3.is_uncovered = false ∧
    (deriveBusActions pendingBus3 .admin).canMarkArrived = false ∧
    (deriveBusActions pendingBus3 .admin).canMarkCovered = false := by
  refine ⟨rfl, rfl, rfl, rfl, rfl, rfl⟩

/-- C2 amended: `canMarkArrived` holds iff the role is monitor (admin
acts only through the edit modal), the status is pending, `covered_by`
is empty and `is_uncovered` is false; `canMarkDeparted` iff monitor and
arrived; `canMarkCovered` iff monitor and pending. -/
theorem claim_C2_action_policy (bus : BusWithStatus) (mode : ViewMode) :
    ((deriveBusActions bus mode).canMarkArrived = true ↔
      mode = .monitor ∧ bus.derivedStatus = .pending ∧
        bus.covered_by = "" ∧ bus.is_uncovered = false) ∧
    ((deriveBusActions bus mode).canMarkDeparted = true ↔
      mode = .monitor ∧ bus.derivedStatus = .arrived) ∧
    ((deriveBusActions bus mode).canMarkCovered = true ↔
      mode = .monitor ∧ bus.derivedStatus = .pending) := by
  simp [deriveBusActions, and_assoc]

/-! ## Claim C7: merge with a missing status row -/

/-- C7: a configured bus with no matching status row merges to an entry
with all-empty status fields, derived status pending and section
pending; `mergeBusData` is total, so no error can be raised. -/
theorem claim_C7_merge_missing_row
    (configData : List BusConfig) (statusData : List BusStatus)
    (c : BusConfig) (hc : c ∈ configData)
    (hmiss : ∀ r ∈ statusData, r.bus_number ≠ c.bus_number) :
    ∃ b ∈ mergeBusData configData statusData,
      b.bus_number = c.bus_number ∧
      b.covered_by = "" ∧ b.is_uncovered = false ∧
      b.arrival_time = "" ∧ b.departure_time = "" ∧
      b.derivedStatus = .pending ∧ b.uiSection = .pending := by
  have hfind : statusData.find? (fun s => s.bus_number = c.bus_number) = none := by
    rw [List.find?_eq_none]
    intro r hr
    simpa using hmiss r hr
  refine ⟨_, List.mem_map_of_mem _ hc, ?_⟩
  simp [hfind, emptyStatusFor, deriveBusStatus, deriveBusSection]

/-- C7 witness: config bus "7" against an empty status table. -/
theorem claim_C7_witness :
    ∃ b ∈ mergeBusData [{ bus_number := "7", expected_arrival_time := "15:00" }] [],
      b.bus_number = "7" ∧
      b.covered_by = "" ∧ b.is_uncovered = false ∧
      b.arrival_time = "" ∧ b.departure_time = "" ∧
      b.derivedStatus = .pending ∧ b.uiSection = .pending :=
  claim_C7_merge_missing_row _ _ _ (List.mem_singleton.mpr rfl)
    (by intro r hr; simp at hr)

/-! ## Optimistic local update (claim C9) -/

/-- Type `Partial<BusStatus>`: each field optionally present.  A spread
`\x7b ...bus, ...updates \x7d` overwrites exactly the present fields. -/
structure BusStatusPatch where
  bus_number : Option String := none
  covered_by : Option String := none
  is_uncovered : Option Bool := none
  arrival_time : Option String := none
  departure_time : Option String := none
  last_modified_by : Option String := none
  last_modified_at : Option String := none
deriving DecidableEq, Repr

/-- The spread `\x7b ...bus, ...updates \x7d` restricted to the
`BusStatus` fields. -/
def applyPatch (b : BusStatus) (u : BusStatusPatch) : BusStatus :=
  { bus_number := u.bus_number.getD b.bus_number
    covered_by := u.covered_by.getD b.covered_by
    is_uncovered := u.is_uncovered.getD b.is_uncovered
    arrival_time := u.arrival_time.getD b.arrival_time
    departure_time := u.departure_time.getD b.departure_time
    last_modified_by := u.last_modified_by.getD b.last_modified_by
    last_modified_at := u.last_modified_at.getD b.last_modified_at }

/-- Function `updateBusLocally` (`buses.svelte.ts` lines 203-216): map over the
roster; on the bus whose number matches, merge the patch and re-derive
status and section (actions and expected time are carried over). -/
def updateBusLocally (buses : List BusWithStatus) (busNumber : String)
    (updates : BusStatusPatch) : List BusWithStatus :=
  buses.map fun bus =>
    if bus.bus_number = busNumber then
      let updated := { bus with toBusStatus := applyPatch bus.toBusStatus updates }
      let derivedStatus := deriveBusStatus updated.toBusStatus
      { updated with derivedStatus := derivedStatus
                     uiSection := deriveBusSection derivedStatus }
    else bus

theorem Option.getD_getD_self {α : Type} (o : Option α) (x : α) :
    o.getD (o.getD x) = o.getD x := by cases o <;> rfl

theorem applyPatch_idem (b : BusStatus) (u : BusStatusPatch) :
    applyPatch (applyPatch b u) u = applyPatch b u := by
  simp [applyPatch, Option.getD_getD_self]

/-- C9: `updateBusLocally` is idempotent — applying the same patch to
the same bus number twice yields the same roster (hence the same derived
status and section for every bus) as applying it once. -/
theorem claim_C9_update_idempotent (buses : List BusWithStatus)
    (busNumber : String) (updates : BusStatusPatch) :
    updateBusLocally (updateBusLocally buses busNumber updates) busNumber updates
      = updateBusLocally buses busNumber updates := by
  unfold updateBusLocally
  rw [List.map_map]
  refine List.map_congr_left ?_
  intro bus _
  by_cases h : bus.bus_number = busNumber
  · simp only [Function.comp, h, if_pos]
    by_cases h2 : (applyPatch bus.toBusStatus updates).bus_number = busNumber
    · simp [h2, applyPatch_idem]
    · simp [h2]
  · simp [Function.comp, h]

/-! ## Bus state coordinator (claims C6 and C10)

The module-level reactive state of `buses.svelte.ts` is passed
explicitly; the remote calls `getBusDataBatched`, `ensureDailySheet` and
`getBusStatus` become `Except` parameters (an exception is `.error` with
the surfaced message). -/

/-- Result shape of `getBusDataBatched`. -/
structure BatchedBusData where
  config : List BusConfig
  status : Option (List BusStatus)
  sheetExists : Bool
deriving Repr

/-- The module-level reactive state of `buses.svelte.ts`. -/
structure CoordState where
  buses : List BusWithStatus
  config : List BusConfig
  isLoading : Bool
  error : Option String
  lastUpdated : Option Nat
deriving Repr

/-- Function `loadBuses` (`buses.svelte.ts` lines 118-143).  Sets the loading
flag and clears the error, then: on a batched-fetch failure surfaces the
message; otherwise stores the config; if the sheet existed with status
rows, merges them, else falls back to `ensureDailySheet` then
`getBusStatus` (either may fail); every success path merges and stamps
`lastUpdated`.  The `finally` clears the loading flag on all paths. -/
def loadBuses (s : CoordState) (batched : Except String BatchedBusData)
    (ensureRes : Except String Unit)
    (statusRes : Except String (List BusStatus)) (now : Nat) : CoordState :=
  let s := { s with isLoading := true, error := none }
  match batched with
  | .error e => { s with isLoading := false, error := some e }
  | .ok result =>
    let s := { s with config := result.config }
    match result.sheetExists, result.status with
    | true, some statusRows =>
      { s with buses := mergeBusData result.config statusRows
               lastUpdated := some now, isLoading := false }
    | _, _ =>
      match ensureRes with
      | .error e => { s with isLoading := false, error := some e }
      | .ok _ =>
        match statusRes with
        | .error e => { s with isLoading := false, error := some e }
        | .ok statusData =>
          { s with buses := mergeBusData result.config statusData
                   lastUpdated := some now, isLoading := false }

/-- Function `refreshBuses` (`buses.svelte.ts` lines 148-161): re-fetch status
only, merge against the session's config; on failure only the error
field changes. -/
def refreshBuses (s : CoordState) (statusRes : Except String (List BusStatus))
    (now : Nat) : CoordState :=
  match statusRes with
  | .ok statusData =>
    { s with buses := mergeBusData s.config statusData
             lastUpdated := some now, error := none }
  | .error e => { s with error := some e }

/-- C6: a failed load or refresh sets the error message and leaves the
previously loaded roster untouched (whichever remote step failed), and a
successful load or refresh stamps `lastUpdated`. -/
theorem claim_C6_failure_preserves_roster (s : CoordState)
    (batched : Except String BatchedBusData) (ensureRes : Except String Unit)
    (statusRes : Except String (List BusStatus)) (now : Nat) :
    (∀ e, batched = .error e →
      (loadBuses s batched ensureRes statusRes now).buses = s.buses ∧
      (loadBuses s batched ensureRes statusRes now).error = some e) ∧
    (∀ r e, batched = .ok r → ¬(r.sheetExists = true ∧ r.status ≠ none) →
      ensureRes = .error e →
      (loadBuses s batched ensureRes statusRes now).buses = s.buses ∧
      (loadBuses s batched ensureRes statusRes now).error = some e) ∧
    (∀ r e, batched = .ok r → ¬(r.sheetExists = true ∧ r.status ≠ none) →
      (∃ u, ensureRes = .ok u) → statusRes = .error e →
      (loadBuses s batched ensureRes statusRes now).buses = s.buses ∧
      (loadBuses s batched ensureRes statusRes now).error = some e) ∧
    (∀ r, batched = .ok r →
      (r.sheetExists = true ∧ r.status ≠ none) ∨
        ((∃ u, ensureRes = .ok u) ∧ ∃ rows, statusRes = .ok rows) →
      (loadBuses s batched ensureRes statusRes now).lastUpdated = some now) ∧
    (∀ e, statusRes = .error e →
      (refreshBuses s statusRes now).buses = s.buses ∧
      (refreshBuses s statusRes now).error = some e) ∧
    (∀ rows, statusRes = .ok rows →
      (refreshBuses s statusRes now).lastUpdated = some now) := by
  refine ⟨?_, ?_, ?_, ?_, ?_, ?_⟩
  · rintro e rfl; exact ⟨rfl, rfl⟩
  · rintro r e rfl hnot rfl
    rcases hr : r.sheetExists with _ | _ <;>
      rcases hst : r.status with _ | rows <;>
      simp_all [loadBuses]
  · rintro r e rfl hnot ⟨u, rfl⟩ rfl
    rcases hr : r.sheetExists with _ | _ <;>
      rcases hst : r.status with _ | rows <;>
      simp_all [loadBuses]
  · rintro r rfl hsucc
    rcases hsucc with ⟨hex, hst⟩ | ⟨⟨u, rfl⟩, rows, rfl⟩
    · rcases hstv : r.status with _ | rows
      · exact absurd hstv hst
      · simp_all [loadBuses]
    · rcases hr : r.sheetExists with _ | _ <;>
        rcases hstv : r.status with _ | rows <;>
        simp_all [loadBuses]
  · rintro e rfl; exact ⟨rfl, rfl⟩
  · rintro rows rfl; rfl

/-- C6 witness: at a concrete state, a failed batched fetch keeps the
roster and surfaces the message, and a successful refresh stamps the
timestamp. -/
theorem claim_C6_witness :
    ((loadBuses { buses := mergeBusData [] [], config := [], isLoading := false
                  error := none, lastUpdated := none }
        (.error "Quota exceeded") (.ok ()) (.ok []) 7).buses
      = mergeBusData [] [] ∧
     (loadBuses { buses := mergeBusData [] [], config := [], isLoading := false
                  error := none, lastUpdated := none }
        (.error "Quota exceeded") (.ok ()) (.ok []) 7).error
      = some "Quota exceeded") ∧
    (refreshBuses { buses := [], config := [], isLoading := false
                    error := none, lastUpdated := none }
        (.ok []) 7).lastUpdated = some 7 := by
  have h := claim_C6_failure_preserves_roster
    { buses := mergeBusData [] [], config := [], isLoading := false
      error := none, lastUpdated := none }
    (.error "Quota exceeded") (.ok ()) (.ok []) 7
  have h2 := claim_C6_failure_preserves_roster
    { buses := [], config := [], isLoading := false
      error := none, lastUpdated := none }
    (.error "Quota exceeded") (.ok ()) (.ok []) 7
  exact ⟨h.1 "Quota exceeded" rfl, h2.2.2.2.2.2 [] rfl⟩

/-! ## Claim C10: roster/config composition

Two parts of the claim fail on the code: `updateBusLocally` applied with
a patch that sets `bus_number` changes the roster's bus-number sequence,
and a load that fails after its batched fetch stores the new config
while leaving the old roster, so the composition is not established by
every load.  Both are refuted at concrete inputs and the claim is
amended accordingly. -/

/-- The roster bus-number sequence coincides with the config bus-number
sequence. -/
def busInvariant (s : CoordState) : Prop :=
  s.buses.map (fun b => b.bus_number) = s.config.map (fun c => c.bus_number)

theorem mergeBusData_busNumbers (configData : List BusConfig)
    (statusData : List BusStatus) :
    (mergeBusData configData statusData).map (fun b => b.bus_number)
      = configData.map (fun c => c.bus_number) := by
  unfold mergeBusData
  rw [List.map_map]
  refine List.map_congr_left ?_
  intro c _
  rcases hf : statusData.find? (fun s => s.bus_number = c.bus_number) with _ | r
  · simp [Function.comp, hf, emptyStatusFor]
  · have hr := List.find?_some hf
    simp only [decide_eq_true_eq] at hr
    simp [Function.comp, hf, hr]

/-- C10 counterexample: (i) patching `bus_number` through
`updateBusLocally` changes the roster's bus-number sequence, so the
composition is not preserved by every local update; (ii) a load whose
batched fetch returns a changed configuration and whose subsequent
`ensureDailySheet` fails stores the new config but keeps the old roster,
so the composition is not established by every load. -/
theorem claim_C10_counterexample :
    ((updateBusLocally
        (mergeBusData [{ bus_number := "3", expected_arrival_time := "15:00" }] [])
        "3" { bus_number := some "99" }).map (fun b => b.bus_number)
      ≠ (mergeBusData [{ bus_number := "3", expected_arrival_time := "15:00" }] []).map
          (fun b => b.bus_number)) ∧
    ((loadBuses
        { buses := mergeBusData [{ bus_number := "3", expected_arrival_time := "15:00" }] []
          config := [{ bus_number := "3", expected_arrival_time := "15:00" }]
          isLoading := false, error := none, lastUpdated := none }
        (.ok { config := [{ bus_number := "4", expected_arrival_time := "15:00" }]
               status := none, sheetExists := false })
        (.error "Quota exceeded") (.ok []) 0).buses.map (fun b => b.bus_number)
      ≠ (loadBuses
        { buses := mergeBusData [{ bus_number := "3", expected_arrival_time := "15:00" }] []
          config := [{ bus_number := "3", expected_arrival_time := "15:00" }]
          isLoading := false, error := none, lastUpdated := none }
        (.ok { config := [{ bus_number := "4", expected_arrival_time := "15:00" }]
               status := none, sheetExists := false })
        (.error "Quota exceeded") (.ok []) 0).config.map (fun c => c.bus_number)) := by
  constructor <;> decide

/-- C10 amended: the merged roster has exactly one entry per configured
bus in configuration order (so unmatched status records are silently
omitted); the composition holds after every load that completes
successfully and after every refresh (failed refreshes change neither
side); and it is preserved by `updateBusLocally` whenever the patch does
not set `bus_number` — as at every call site — while `updateBusLocally`
leaves the roster entirely unchanged when no entry matches. -/
theorem claim_C10_roster_config_composition (s : CoordState)
    (batched : Except String BatchedBusData) (ensureRes : Except String Unit)
    (statusRes : Except String (List BusStatus)) (now : Nat)
    (configData : List BusConfig) (statusData : List BusStatus)
    (buses : List BusWithStatus) (busNumber : String) (updates : BusStatusPatch) :
    ((mergeBusData configData statusData).map (fun b => b.bus_number)
       = configData.map (fun c => c.bus_number)) ∧
    (∀ b ∈ mergeBusData configData statusData,
       ∃ c ∈ configData, b.bus_number = c.bus_number) ∧
    (∀ r, batched = .ok r →
      (r.sheetExists = true ∧ r.status ≠ none) ∨
        ((∃ u, ensureRes = .ok u) ∧ ∃ rows, statusRes = .ok rows) →
      busInvariant (loadBuses s batched ensureRes statusRes now)) ∧
    (∀ rows, statusRes = .ok rows →
      busInvariant (refreshBuses s statusRes now)) ∧
    (∀ e, statusRes = .error e → busInvariant s →
      busInvariant (refreshBuses s statusRes now)) ∧
    (updates.bus_number = none →
      (updateBusLocally buses busNumber updates).map (fun b => b.bus_number)
        = buses.map (fun b => b.bus_number)) ∧
    (∀ (i : Nat) (b : BusWithStatus), buses[i]? = some b →
      b.bus_number ≠ busNumber →
      (updateBusLocally buses busNumber updates)[i]? = some b) ∧
    ((∀ b ∈ buses, b.bus_number ≠ busNumber) →
      updateBusLocally buses busNumber updates = buses) := by
  refine ⟨mergeBusData_busNumbers _ _, ?_, ?_, ?_, ?_, ?_, ?_, ?_⟩
  · intro b hb
    unfold mergeBusData at hb
    rcases List.mem_map.mp hb with ⟨c, hc, rfl⟩
    refine ⟨c, hc, ?_⟩
    rcases hf : statusData.find? (fun s => s.bus_number = c.bus_number) with _ | r
    · simp [hf, emptyStatusFor]
    · have hr := List.find?_some hf
      simp only [decide_eq_true_eq] at hr
      simp [hf, hr]
  · rintro r rfl hsucc
    rcases hsucc with ⟨hex, hst⟩ | ⟨⟨u, rfl⟩, rows, rfl⟩
    · rcases hstv : r.status with _ | rows
      · exact absurd hstv hst
      · simp_all [loadBuses, busInvariant, mergeBusData_busNumbers]
    · rcases hr : r.sheetExists with _ | _ <;>
        rcases hstv : r.status with _ | rows <;>
        simp_all [loadBuses, busInvariant, mergeBusData_busNumbers]
  · rintro rows rfl
    simp [refreshBuses, busInvariant, mergeBusData_busNumbers]
  · rintro e rfl hinv
    exact hinv
  · intro hnone
    unfold updateBusLocally
    rw [List.map_map]
    refine List.map_congr_left ?_
    intro bus _
    by_cases h : bus.bus_number = busNumber <;>
      simp [Function.comp, h, applyPatch, hnone]
  · intro i b hget hne
    unfold updateBusLocally
    rw [List.getElem?_map, hget]
    simp [hne]
  · intro hnomatch
    unfold updateBusLocally
    have : ∀ b ∈ buses,
        (if b.bus_number = busNumber then
          let updated := { b with toBusStatus := applyPatch b.toBusStatus updates }
          let derivedStatus := deriveBusStatus updated.toBusStatus
          { updated with derivedStatus := derivedStatus
                         uiSection := deriveBusSection derivedStatus }
        else b) = b := by
      intro b hb
      rw [if_neg (hnomatch b hb)]
    calc buses.map _ = buses.map id := List.map_congr_left (by simpa using this)
      _ = buses := List.map_id buses

/-- C10 witness: the amended composition at concrete inputs — a
successful refresh establishes the composition even from a mismatched
state (empty roster against a one-bus config), a `bus_number`-free patch
preserves the bus-number sequence, and an update aimed at bus "7"
leaves the non-matching entry for bus "3" unchanged in place. -/
theorem claim_C10_witness :
    busInvariant
      (refreshBuses
        { buses := []
          config := [{ bus_number := "3", expected_arrival_time := "15:00" }]
          isLoading := false, error := none, lastUpdated := none }
        (.ok []) 4) ∧
    (updateBusLocally
        (mergeBusData [{ bus_number := "3", expected_arrival_time := "15:00" }] [])
        "3" { arrival_time := some "15:05" }).map (fun b => b.bus_number)
      = (mergeBusData [{ bus_number := "3", expected_arrival_time := "15:00" }] []).map
          (fun b => b.bus_number) ∧
    (updateBusLocally
        (mergeBusData [{ bus_number := "3", expected_arrival_time := "15:00" }] [])
        "7" { arrival_time := some "15:05" })[0]?
      = some { toBusStatus := emptyStatusFor "3"
               expected_arrival_time := "15:00"
               derivedStatus := .pending
               uiSection := .pending
               actions := noActions } := by
  have h := claim_C10_roster_config_composition
    { buses := []
      config := [{ bus_number := "3", expected_arrival_time := "15:00" }]
      isLoading := false, error := none, lastUpdated := none }
    (.ok { config := [], status := none, sheetExists := false })
    (.ok ()) (.ok []) 4 [] []
    (mergeBusData [{ bus_number := "3", expected_arrival_time := "15:00" }] [])
    "3" { arrival_time := some "15:05" }
  have h2 := claim_C10_roster_config_composition
    { buses := []
      config := [{ bus_number := "3", expected_arrival_time := "15:00" }]
      isLoading := false, error := none, lastUpdated := none }
    (.ok { config := [], status := none, sheetExists := false })
    (.ok ()) (.ok []) 4 [] []
    (mergeBusData [{ bus_number := "3", expected_arrival_time := "15:00" }] [])
    "7" { arrival_time := some "15:05" }
  refine ⟨h.2.2.2.1 [] rfl, h.2.2.2.2.2.1 rfl, ?_⟩
  exact h2.2.2.2.2.2.2.1 0 _ rfl (by decide)

/-! ## Adaptive throttle controller (claim C3)

Module-level `rateLimitHits` / `lastRateLimitTime` (sheets-cache) become
a state record; `Date.now()` is a `Nat` parameter.  The JS guard
`Date.now() - lastRateLimitTime > RATE_LIMIT_COOLDOWN_MS` is
`lastRateLimitTime + RATE_LIMIT_COOLDOWN_MS < now`, which agrees with
the JS number subtraction whenever it matters (a negative difference is
below the cooldown on both sides). -/

def RATE_LIMIT_COOLDOWN_MS : Nat := 60000

def BASE_POLL_INTERVAL_MS : Nat := 10000

def MAX_POLL_INTERVAL_MS : Nat := 60000

/-- The sheets-cache module throttle state. -/
structure ThrottleState where
  rateLimitHits : Nat
  lastRateLimitTime : Nat
deriving DecidableEq, Repr

/-- Function `recordRateLimitHit` (sheets-cache): increment the hit count and
stamp the time of the rejection. -/
def recordRateLimitHit (now : Nat) (s : ThrottleState) : ThrottleState :=
  { rateLimitHits := s.rateLimitHits + 1, lastRateLimitTime := now }

/-- Function `recordSuccessfulCall` (sheets-cache lines 1506-1520): once the
cooldown has elapsed since the last rejection, a success decrements the
hit count, floored at zero (`Math.max(0, hits - 1)` is `Nat`
subtraction under the `hits > 0` guard). -/
def recordSuccessfulCall (now : Nat) (s : ThrottleState) : ThrottleState :=
  if s.lastRateLimitTime + RATE_LIMIT_COOLDOWN_MS < now ∧ 0 < s.rateLimitHits then
    { s with rateLimitHits := s.rateLimitHits - 1 }
  else s

/-- Function `getRecommendedPollInterval` (sheets-cache lines 1526-1534):
exponential backoff `base * 2^min(hits, 4)` clamped to the maximum. -/
def getRecommendedPollInterval (s : ThrottleState) : Nat :=
  if s.rateLimitHits = 0 then BASE_POLL_INTERVAL_MS
  else
    min (BASE_POLL_INTERVAL_MS * 2 ^ (min s.rateLimitHits 4)) MAX_POLL_INTERVAL_MS

theorem pollInterval_formula (s : ThrottleState) :
    getRecommendedPollInterval s =
      if s.rateLimitHits = 0 then 10000
      else min (10000 * 2 ^ (min s.rateLimitHits 4)) 60000 := rfl

theorem getRecommendedPollInterval_mono {a b : ThrottleState}
    (h : a.rateLimitHits ≤ b.rateLimitHits) :
    getRecommendedPollInterval a ≤ getRecommendedPollInterval b := by
  rw [pollInterval_formula, pollInterval_formula]
  by_cases ha : a.rateLimitHits = 0
  · rw [if_pos ha]
    by_cases hb : b.rateLimitHits = 0
    · rw [if_pos hb]
    · rw [if_neg hb]
      refine le_min ?_ (by norm_num)
      calc (10000 : Nat) = 10000 * 2 ^ 0 := by norm_num
        _ ≤ 10000 * 2 ^ (min b.rateLimitHits 4) :=
            Nat.mul_le_mul le_rfl (Nat.pow_le_pow_right (by norm_num) (Nat.zero_le _))
  · have hb : b.rateLimitHits ≠ 0 := by omega
    rw [if_neg ha, if_neg hb]
    exact min_le_min
      (Nat.mul_le_mul le_rfl (Nat.pow_le_pow_right (by norm_num) (by omega))) le_rfl

theorem recordSuccessfulCall_iterate_hits (now : Nat) (s : ThrottleState)
    (hcool : s.lastRateLimitTime + RATE_LIMIT_COOLDOWN_MS < now) (n : Nat) :
    ((recordSuccessfulCall now)^[n] s).rateLimitHits = s.rateLimitHits - n ∧
    ((recordSuccessfulCall now)^[n] s).lastRateLimitTime = s.lastRateLimitTime := by
  induction n generalizing s with
  | zero => exact ⟨rfl, rfl⟩
  | succ n ih =>
    rw [Function.iterate_succ_apply]
    rcases Nat.eq_zero_or_pos s.rateLimitHits with h0 | hpos
    · have hstep : recordSuccessfulCall now s = s := by
        unfold recordSuccessfulCall
        rw [if_neg]; omega
      rw [hstep]
      obtain ⟨h1, h2⟩ := ih s hcool
      exact ⟨by omega, h2⟩
    · have hstep : recordSuccessfulCall now s
          = { s with rateLimitHits := s.rateLimitHits - 1 } := by
        unfold recordSuccessfulCall
        rw [if_pos ⟨hcool, hpos⟩]
      rw [hstep]
      obtain ⟨h1, h2⟩ := ih { s with rateLimitHits := s.rateLimitHits - 1 } hcool
      refine ⟨?_, h2⟩
      have h1' : ((recordSuccessfulCall now)^[n]
            { s with rateLimitHits := s.rateLimitHits - 1 }).rateLimitHits
          = s.rateLimitHits - 1 - n := by simpa using h1
      omega

/-- C3: the recommended interval is the base interval when the hit count
is zero and otherwise `base * 2^min(hits, 4)` clamped to the maximum
(60000 ms, six times the 10000 ms base); a rejection increments the
count; a success decrements it by one exactly when the 60-second
cooldown since the last rejection has elapsed and the count is positive;
the interval never exceeds the maximum; successes never increase the
interval, strictly decrease it while the count is at most 3 (below the
clamp), and once the cooldown has elapsed, `hits` many successes bring
the interval back to the base. -/
theorem claim_C3_throttle_backoff (s : ThrottleState) (now n : Nat) :
    (s.rateLimitHits = 0 → getRecommendedPollInterval s = BASE_POLL_INTERVAL_MS) ∧
    (0 < s.rateLimitHits →
      getRecommendedPollInterval s
        = min (BASE_POLL_INTERVAL_MS * 2 ^ (min s.rateLimitHits 4))
            MAX_POLL_INTERVAL_MS) ∧
    MAX_POLL_INTERVAL_MS = 6 * BASE_POLL_INTERVAL_MS ∧
    (recordRateLimitHit now s).rateLimitHits = s.rateLimitHits + 1 ∧
    (s.lastRateLimitTime + RATE_LIMIT_COOLDOWN_MS < now → 0 < s.rateLimitHits →
      (recordSuccessfulCall now s).rateLimitHits = s.rateLimitHits - 1) ∧
    (¬(s.lastRateLimitTime + RATE_LIMIT_COOLDOWN_MS < now ∧ 0 < s.rateLimitHits) →
      recordSuccessfulCall now s = s) ∧
    getRecommendedPollInterval s ≤ MAX_POLL_INTERVAL_MS ∧
    getRecommendedPollInterval (recordSuccessfulCall now s)
      ≤ getRecommendedPollInterval s ∧
    (s.lastRateLimitTime + RATE_LIMIT_COOLDOWN_MS < now → 0 < s.rateLimitHits →
      s.rateLimitHits ≤ 3 →
      getRecommendedPollInterval (recordSuccessfulCall now s)
        < getRecommendedPollInterval s) ∧
    (s.lastRateLimitTime + RATE_LIMIT_COOLDOWN_MS < now → s.rateLimitHits ≤ n →
      getRecommendedPollInterval ((recordSuccessfulCall now)^[n] s)
        = BASE_POLL_INTERVAL_MS) := by
  have hstep_hits : (recordSuccessfulCall now s).rateLimitHits ≤ s.rateLimitHits := by
    unfold recordSuccessfulCall
    split
    · exact Nat.sub_le _ _
    · exact le_rfl
  refine ⟨?_, ?_, rfl, rfl, ?_, ?_, ?_, ?_, ?_, ?_⟩
  · intro h; simp [getRecommendedPollInterval, h]
  · intro h
    have h' : s.rateLimitHits ≠ 0 := by omega
    simp [getRecommendedPollInterval, h']
  · intro hcool hpos
    unfold recordSuccessfulCall
    rw [if_pos ⟨hcool, hpos⟩]
  · intro hneg
    unfold recordSuccessfulCall
    rw [if_neg hneg]
  · unfold getRecommendedPollInterval BASE_POLL_INTERVAL_MS MAX_POLL_INTERVAL_MS
    split
    · norm_num
    · omega
  · exact getRecommendedPollInterval_mono hstep_hits
  · intro hcool hpos hle
    have hstep : (recordSuccessfulCall now s).rateLimitHits = s.rateLimitHits - 1 := by
      unfold recordSuccessfulCall
      rw [if_pos ⟨hcool, hpos⟩]
    rw [pollInterval_formula, pollInterval_formula, hstep]
    have hcase : s.rateLimitHits = 1 ∨ s.rateLimitHits = 2 ∨ s.rateLimitHits = 3 := by
      omega
    rcases hcase with h | h | h <;> rw [h] <;> decide
  · intro hcool hn
    rcases recordSuccessfulCall_iterate_hits now s hcool n with ⟨h1, _⟩
    have : ((recordSuccessfulCall now)^[n] s).rateLimitHits = 0 := by omega
    simp [getRecommendedPollInterval, this]

/-- C3 witness: from two rejections at time 0, the interval is 40000 ms;
two successes after the cooldown return it to the 10000 ms base. -/
theorem claim_C3_witness :
    getRecommendedPollInterval { rateLimitHits := 2, lastRateLimitTime := 0 }
      = 40000 ∧
    getRecommendedPollInterval
      ((recordSuccessfulCall 70000)^[2]
        { rateLimitHits := 2, lastRateLimitTime := 0 })
      = BASE_POLL_INTERVAL_MS := by
  have h := claim_C3_throttle_backoff
    { rateLimitHits := 2, lastRateLimitTime := 0 } 70000 2
  have h2 := h.2.1 (by decide)
  refine ⟨?_, h.2.2.2.2.2.2.2.2.2 (by decide) (by decide)⟩
  rw [h2]; decide

/-! ## Request deduplication (claim C5)

`deduplicateRequest` keys a pending-promise table; a promise is
identified by an allocation id and the underlying `requestFn`
invocations are logged in order, so "invoked exactly once" and "both
callers receive the same result" are statements about the log and the
returned id.  The `finally` handler that releases the key on completion
— success or failure alike — is `completeRequest`. -/

/-- The sheets-cache `pendingRequests` map together with a promise-id
allocator and the log of `requestFn` invocations. -/
structure DedupState where
  pending : List (String × Nat)
  nextId : Nat
  invoked : List Nat
deriving DecidableEq, Repr

/-- Function `deduplicateRequest` (sheets-cache lines 1471-1483): an in-flight
key returns the cached promise untouched; otherwise the request function
runs (logged), its promise is stored under the key, and its id is
returned. -/
def deduplicateRequest (key : String) (s : DedupState) : Nat × DedupState :=
  match s.pending.lookup key with
  | some p => (p, s)
  | none =>
    (s.nextId,
      { pending := (key, s.nextId) :: s.pending
        nextId := s.nextId + 1
        invoked := s.invoked ++ [s.nextId] })

/-- The `finally` handler of `deduplicateRequest`: on completion of the
promise (success or failure) the key is deleted from the table. -/
def completeRequest (key : String) (s : DedupState) : DedupState :=
  { s with pending := s.pending.eraseP (fun kv => kv.1 == key) }

/-- C5: while a key is in flight a second call returns the same promise
(same result or rejection) without invoking the request function or
changing state; a fresh key invokes the function exactly once (one log
entry) and an immediate second call shares that promise with no further
invocation; completing the operation — success or failure — removes the
key, and a later call with the key invokes the function afresh. -/
theorem claim_C5_deduplication (s : DedupState) (key : String) (p : Nat) :
    (s.pending.lookup key = some p → deduplicateRequest key s = (p, s)) ∧
    (s.pending.lookup key = none →
      (deduplicateRequest key s).2.invoked
          = s.invoked ++ [(deduplicateRequest key s).1] ∧
      deduplicateRequest key (deduplicateRequest key s).2
          = ((deduplicateRequest key s).1, (deduplicateRequest key s).2) ∧
      (completeRequest key (deduplicateRequest key s).2).pending.lookup key
          = none ∧
      (deduplicateRequest key
          (completeRequest key (deduplicateRequest key s).2)).2.invoked
        = (deduplicateRequest key s).2.invoked
            ++ [(deduplicateRequest key
                  (completeRequest key (deduplicateRequest key s).2)).1]) := by
  constructor
  · intro h
    unfold deduplicateRequest
    rw [h]
  · intro h
    have h1 : deduplicateRequest key s
        = (s.nextId,
            { pending := (key, s.nextId) :: s.pending
              nextId := s.nextId + 1
              invoked := s.invoked ++ [s.nextId] }) := by
      unfold deduplicateRequest
      rw [h]
    have hcomp : completeRequest key (deduplicateRequest key s).2
        = { pending := s.pending, nextId := s.nextId + 1
            invoked := s.invoked ++ [s.nextId] } := by
      rw [h1]
      unfold completeRequest
      simp [List.eraseP_cons]
    refine ⟨by rw [h1], ?_, ?_, ?_⟩
    · rw [h1]
      unfold deduplicateRequest
      simp [List.lookup]
    · rw [hcomp]
      exact h
    · rw [hcomp, h1]
      simp [deduplicateRequest, h]

/-- C5 witness: on an empty table with key "ensure:2024-05-01", the
first call invokes once, the concurrent second call shares the promise,
and after completion a third call invokes afresh. -/
theorem claim_C5_witness :
    (deduplicateRequest "ensure:2024-05-01"
        { pending := [], nextId := 0, invoked := [] }).2.invoked
      = [0] ∧
    deduplicateRequest "ensure:2024-05-01"
        (deduplicateRequest "ensure:2024-05-01"
          { pending := [], nextId := 0, invoked := [] }).2
      = (0, (deduplicateRequest "ensure:2024-05-01"
          { pending := [], nextId := 0, invoked := [] }).2) ∧
    (deduplicateRequest "ensure:2024-05-01"
        (completeRequest "ensure:2024-05-01"
          (deduplicateRequest "ensure:2024-05-01"
            { pending := [], nextId := 0, invoked := [] }).2)).2.invoked
      = [0, 1] := by
  have h := claim_C5_deduplication
    { pending := [], nextId := 0, invoked := [] } "ensure:2024-05-01" 0
  have h2 := h.2 rfl
  refine ⟨h2.1, ?_, ?_⟩
  · have := h2.2.1
    simpa using this
  · have := h2.2.2.2
    simpa using this

/-! ## Grouped, sorted view (claim C8)

`getBusesForView` sorts each section with
`a.bus_number.localeCompare(b.bus_number, undefined, \x7b numeric: true \x7d)`.
The numeric collation is modelled as natural-order comparison: a string
is tokenized into maximal digit runs (compared by value) and single
non-digit characters (compared by code point, digits ordering before
non-digits as in the collation); token lists compare lexicographically.
JavaScript's stable `Array.prototype.sort` with comparator `f` is
`List.mergeSort` with `le a b := f a b ≤ 0`. -/

/-- A token of the numeric collation: a maximal digit run (by value) or
a single non-digit character. -/
inductive NatToken where
  | num (n : Nat)
  | ch (c : Char)
deriving DecidableEq, Repr

/-- Three-way comparison of collation tokens. -/
def tokCmp : NatToken → NatToken → Ordering
  | .num a, .num b => if a < b then .lt else if b < a then .gt else .eq
  | .num _, .ch _ => .lt
  | .ch _, .num _ => .gt
  | .ch a, .ch b =>
      if a.toNat < b.toNat then .lt else if b.toNat < a.toNat then .gt else .eq

/-- Pending digit-run accumulator flushed into a token. -/
def flushAcc : Option Nat → List NatToken
  | none => []
  | some n => [.num n]

/-- Tokenizer: maximal digit runs become `num` tokens, everything else a
`ch` token. -/
def tokenizeAux : Option Nat → List Char → List NatToken
  | acc, [] => flushAcc acc
  | acc, c :: cs =>
    if c.isDigit then tokenizeAux (some ((acc.getD 0) * 10 + (c.toNat - 48))) cs
    else flushAcc acc ++ .ch c :: tokenizeAux none cs

def natTokens (s : String) : List NatToken := tokenizeAux none s.data

/-- Lexicographic comparison of token lists. -/
def cmpTokens : List NatToken → List NatToken → Ordering
  | [], [] => .eq
  | [], _ :: _ => .lt
  | _ :: _, [] => .gt
  | a :: as, b :: bs =>
    match tokCmp a b with
    | .eq => cmpTokens as bs
    | o => o

/-- The model of
`a.localeCompare(b, undefined, \x7b numeric: true \x7d)`. -/
def localeCompareNumeric (a b : String) : Ordering :=
  cmpTokens (natTokens a) (natTokens b)

theorem tokCmp_swap (a b : NatToken) : tokCmp b a = (tokCmp a b).swap := by
  cases a <;> cases b <;>
    simp only [tokCmp] <;>
    first
      | rfl
      | (split_ifs <;> first | rfl | omega)

theorem tokCmp_eq_iff (a b : NatToken) : tokCmp a b = .eq ↔ a = b := by
  cases a with
  | num n =>
    cases b with
    | num m =>
      simp only [tokCmp]
      split_ifs with h1 h2 <;> simp <;> omega
    | ch d => simp [tokCmp]
  | ch c =>
    cases b with
    | num m => simp [tokCmp]
    | ch d =>
      simp only [tokCmp]
      split_ifs with h1 h2
      · have : c ≠ d := by
          intro he; subst he; omega
        simp [this]
      · have : c ≠ d := by
          intro he; subst he; omega
        simp [this]
      · have hn : c.toNat = d.toNat := by omega
        have : c = d := Char.ext (UInt32.ext hn)
        simp [this]

theorem tokCmp_lt_trans {a b c : NatToken}
    (hab : tokCmp a b = .lt) (hbc : tokCmp b c = .lt) : tokCmp a c = .lt := by
  cases a <;> cases b <;> cases c <;>
    simp only [tokCmp] at hab hbc ⊢ <;>
    split_ifs at hab hbc ⊢ <;>
    first
      | rfl
      | omega

theorem cmpTokens_swap : ∀ xs ys : List NatToken,
    cmpTokens ys xs = (cmpTokens xs ys).swap := by
  intro xs
  induction xs with
  | nil => intro ys; cases ys <;> rfl
  | cons a as ih =>
    intro ys
    cases ys with
    | nil => rfl
    | cons b bs =>
      simp only [cmpTokens]
      rw [tokCmp_swap]
      cases h : tokCmp a b <;> simp [Ordering.swap, ih bs]

theorem cmpTokens_eq_iff : ∀ xs ys : List NatToken,
    cmpTokens xs ys = .eq ↔ xs = ys := by
  intro xs
  induction xs with
  | nil => intro ys; cases ys <;> simp [cmpTokens]
  | cons a as ih =>
    intro ys
    cases ys with
    | nil => simp [cmpTokens]
    | cons b bs =>
      simp only [cmpTokens]
      rcases h : tokCmp a b with _ | _ | _
      · have hne : a ≠ b := by
          intro he
          rw [he, (tokCmp_eq_iff b b).mpr rfl] at h
          cases h
        simp [hne]
      · have he : a = b := (tokCmp_eq_iff a b).mp h
        simp [he, ih bs]
      · have hne : a ≠ b := by
          intro he
          rw [he, (tokCmp_eq_iff b b).mpr rfl] at h
          cases h
        simp [hne]

theorem cmpTokens_lt_trans : ∀ xs ys zs : List NatToken,
    cmpTokens xs ys = .lt → cmpTokens ys zs = .lt → cmpTokens xs zs = .lt := by
  intro xs
  induction xs with
  | nil =>
    intro ys zs hab hbc
    cases ys with
    | nil => simp [cmpTokens] at hab
    | cons y ys' =>
      cases zs with
      | nil => simp [cmpTokens] at hbc
      | cons z zs' => rfl
  | cons a as ih =>
    intro ys zs hab hbc
    cases ys with
    | nil => simp [cmpTokens] at hab
    | cons b bs =>
      cases zs with
      | nil => simp [cmpTokens] at hbc
      | cons c cs =>
        simp only [cmpTokens] at hab hbc ⊢
        rcases h1 : tokCmp a b with _ | _ | _
        · simp only [h1] at hab
          rcases h2 : tokCmp b c with _ | _ | _
          · simp only [tokCmp_lt_trans h1 h2]
          · have he : b = c := (tokCmp_eq_iff b c).mp h2
            subst he
            simp only [h1]
          · simp only [h2] at hbc
            exact absurd hbc (by decide)
        · have he : a = b := (tokCmp_eq_iff a b).mp h1
          subst he
          simp only [h1] at hab
          rcases h2 : tokCmp a c with _ | _ | _
          · simp only [h2]
          · simp only [h2] at hbc ⊢
            exact ih bs cs hab hbc
          · simp only [h2] at hbc
            exact absurd hbc (by decide)
        · simp only [h1] at hab
          exact absurd hab (by decide)

theorem cmpTokens_ne_gt_trans (xs ys zs : List NatToken)
    (hab : cmpTokens xs ys ≠ .gt) (hbc : cmpTokens ys zs ≠ .gt) :
    cmpTokens xs zs ≠ .gt := by
  rcases h1 : cmpTokens xs ys with _ | _ | _
  · rcases h2 : cmpTokens ys zs with _ | _ | _
    · rw [cmpTokens_lt_trans xs ys zs h1 h2]; intro h; cases h
    · have he : ys = zs := (cmpTokens_eq_iff ys zs).mp h2
      rw [← he, h1]; intro h; cases h
    · exact absurd h2 hbc
  · have he : xs = ys := (cmpTokens_eq_iff xs ys).mp h1
    rw [he]; exact hbc
  · exact absurd h1 hab

theorem cmpTokens_total (xs ys : List NatToken) :
    cmpTokens xs ys ≠ .gt ∨ cmpTokens ys xs ≠ .gt := by
  rcases h : cmpTokens xs ys with _ | _ | _
  · left; intro hc; cases hc
  · left; intro hc; cases hc
  · right
    rw [cmpTokens_swap, h]
    intro hc; cases hc

/-- The section comparator of `getBusesForView` line 258-259 as a
"may come before" boolean: the comparator result is not positive. -/
def busLe (a b : BusWithStatus) : Bool :=
  decide (localeCompareNumeric a.bus_number b.bus_number ≠ .gt)

/-- The pending-section comparator (lines 262-266): uncovered buses
first, then the numeric-aware comparator. -/
def pendLe (a b : BusWithStatus) : Bool :=
  if a.is_uncovered && !b.is_uncovered then true
  else if !a.is_uncovered && b.is_uncovered then false
  else busLe a b

theorem busLe_trans (a b c : BusWithStatus)
    (hab : busLe a b = true) (hbc : busLe b c = true) : busLe a c = true := by
  simp only [busLe, localeCompareNumeric, decide_eq_true_eq] at hab hbc ⊢
  exact cmpTokens_ne_gt_trans _ _ _ hab hbc

theorem busLe_total (a b : BusWithStatus) : (busLe a b || busLe b a) = true := by
  simp only [busLe, localeCompareNumeric, Bool.or_eq_true, decide_eq_true_eq]
  exact cmpTokens_total _ _

theorem pendLe_trans (a b c : BusWithStatus)
    (hab : pendLe a b = true) (hbc : pendLe b c = true) : pendLe a c = true := by
  cases ha : a.is_uncovered <;> cases hb : b.is_uncovered <;>
    cases hc : c.is_uncovered <;>
    simp_all [pendLe] <;>
    exact busLe_trans a b c hab hbc

theorem pendLe_total (a b : BusWithStatus) : (pendLe a b || pendLe b a) = true := by
  cases ha : a.is_uncovered <;> cases hb : b.is_uncovered <;>
    simp_all [pendLe] <;>
    simpa using busLe_total a b

/-- The three section lists returned by `getBusesForView`. -/
structure ViewSections where
  pending : List BusWithStatus
  arrived : List BusWithStatus
  done : List BusWithStatus

/-- The per-bus action assignment done in the loop of `getBusesForView`
(and in `getBusesWithActions`). -/
def withViewActions (mode : ViewMode) (buses : List BusWithStatus) :
    List BusWithStatus :=
  buses.map fun bus => { bus with actions := deriveBusActions bus mode }

/-- Function `getBusesForView` (`buses.svelte.ts` lines 233-271): attach
mode-specific actions, partition by the stored section with the code's
else-if chain, then sort — pending with uncovered buses first and the
numeric-aware comparator, arrived and done with the numeric-aware
comparator alone. -/
def getBusesForView (mode : ViewMode) (buses : List BusWithStatus) :
    ViewSections :=
  let withA := withViewActions mode buses
  let doneList := withA.filter fun b => b.uiSection == .done
  let arrivedList := withA.filter fun b =>
    b.uiSection != .done && b.uiSection == .arrived
  let pendingList := withA.filter fun b =>
    b.uiSection != .done && b.uiSection != .arrived
  { pending := pendingList.mergeSort pendLe
    arrived := arrivedList.mergeSort busLe
    done := doneList.mergeSort busLe }

/-- C8: in the grouped view, the pending section lists every uncovered
bus before every non-uncovered one and is otherwise (within the
uncovered and non-uncovered groups) in numeric-aware lexicographic
order of bus number; the arrived and done sections are in numeric-aware
lexicographic order; and each output section is a permutation of the
action-annotated roster entries assigned to it. -/
theorem claim_C8_view_sorting (mode : ViewMode) (buses : List BusWithStatus) :
    (getBusesForView mode buses).pending.Pairwise
      (fun a b =>
        (b.is_uncovered = true → a.is_uncovered = true) ∧
        (a.is_uncovered = b.is_uncovered →
          localeCompareNumeric a.bus_number b.bus_number ≠ .gt)) ∧
    (getBusesForView mode buses).arrived.Pairwise
      (fun a b => localeCompareNumeric a.bus_number b.bus_number ≠ .gt) ∧
    (getBusesForView mode buses).done.Pairwise
      (fun a b => localeCompareNumeric a.bus_number b.bus_number ≠ .gt) ∧
    (getBusesForView mode buses).pending.Perm
      ((withViewActions mode buses).filter fun b =>
        b.uiSection != .done && b.uiSection != .arrived) ∧
    (getBusesForView mode buses).arrived.Perm
      ((withViewActions mode buses).filter fun b =>
        b.uiSection != .done && b.uiSection == .arrived) ∧
    (getBusesForView mode buses).done.Perm
      ((withViewActions mode buses).filter fun b => b.uiSection == .done) := by
  refine ⟨?_, ?_, ?_, ?_, ?_, ?_⟩
  · have hs := @List.sorted_mergeSort BusWithStatus pendLe
      (fun a b c => pendLe_trans a b c) (fun a b => pendLe_total a b)
      ((withViewActions mode buses).filter fun b =>
        b.uiSection != .done && b.uiSection != .arrived)
    refine hs.imp ?_
    intro a b h
    constructor
    · intro hb0
      by_contra ha0
      have ha' : a.is_uncovered = false := by
        cases hval : a.is_uncovered
        · rfl
        · exact absurd hval ha0
      rw [pendLe, ha', hb0] at h
      simp at h
    · intro heq
      have hb : busLe a b = true := by
        rw [pendLe, ← heq] at h
        rcases hval : a.is_uncovered with _ | _ <;> rw [hval] at h <;>
          simpa using h
      simpa [busLe] using hb
  · have hs := @List.sorted_mergeSort BusWithStatus busLe
      (fun a b c => busLe_trans a b c) (fun a b => busLe_total a b)
      ((withViewActions mode buses).filter fun b =>
        b.uiSection != .done && b.uiSection == .arrived)
    refine hs.imp ?_
    intro a b h
    simpa [busLe] using h
  · have hs := @List.sorted_mergeSort BusWithStatus busLe
      (fun a b c => busLe_trans a b c) (fun a b => busLe_total a b)
      ((withViewActions mode buses).filter fun b => b.uiSection == .done)
    refine hs.imp ?_
    intro a b h
    simpa [busLe] using h
  · exact List.mergeSort_perm _ _
  · exact List.mergeSort_perm _ _
  · exact List.mergeSort_perm _ _

/-- Sanity instances of the numeric-aware comparator model: "9" sorts
before "10" (numeric, unlike plain lexicographic), and "B42" after
"3". -/
theorem localeCompareNumeric_examples :
    localeCompareNumeric "9" "10" = .lt ∧
    localeCompareNumeric "2" "10" = .lt ∧
    localeCompareNumeric "B42" "3" = .gt ∧
    localeCompareNumeric "3" "3" = .eq := by
  refine ⟨?_, ?_, ?_, ?_⟩ <;> decide

/-- C2 witness: the amended policy at a concrete input — the monitor
role may mark the pending, uncovered-free bus "3" arrived. -/
theorem claim_C2_witness :
    (deriveBusActions pendingBus3 .monitor).canMarkArrived = true :=
  (claim_C2_action_policy pendingBus3 .monitor).1.mpr ⟨rfl, rfl, rfl, rfl⟩

/-- C9 witness: idempotence at a concrete one-bus roster and a concrete
arrival-time patch. -/
theorem claim_C9_witness :
    updateBusLocally
      (updateBusLocally
        (mergeBusData [{ bus_number := "3", expected_arrival_time := "15:00" }] [])
        "3" { arrival_time := some "15:05" })
      "3" { arrival_time := some "15:05" }
    = updateBusLocally
        (mergeBusData [{ bus_number := "3", expected_arrival_time := "15:00" }] [])
        "3" { arrival_time := some "15:05" } :=
  claim_C9_update_idempotent _ _ _

/-- C8 witness: the pending-section ordering property instantiated on a
concrete two-bus roster. -/
theorem claim_C8_witness :
    (getBusesForView .monitor
      (mergeBusData [{ bus_number := "10", expected_arrival_time := "" },
        { bus_number := "9", expected_arrival_time := "" }] [])).pending.Pairwise
      (fun a b =>
        (b.is_uncovered = true → a.is_uncovered = true) ∧
        (a.is_uncovered = b.is_uncovered →
          localeCompareNumeric a.bus_number b.bus_number ≠ .gt)) :=
  (claim_C8_view_sorting .monitor _).1
